import Mathlib

/-!
Verification development for the webseed mirror-discovery and fallback-download
coordinator (`erigon-lib/downloader/webseed.go`).

The Go source is shallowly embedded: pure fragments become Lean functions,
external effects (HTTP fetches, S3 fetches, the bencode validator, the disk)
become explicit oracle parameters, and the mutex-guarded published state
becomes a fold of atomic publish events over a state structure.  Byte strings
are modelled as `List Nat` (one `Nat` per byte); the inputs exercised by the
claims are ASCII, where `Char.toNat` agrees with Go's byte view of a string.
-/

namespace Webseed

/-! ## String helpers (Go `strings` package semantics) -/

/-- Go `unicode.IsSpace` restricted to the Latin-1 range (the only characters
appearing in the inputs under study): space, tab, newline, vertical tab,
form feed, carriage return, NEL, NBSP. -/
def goIsSpace (c : Char) : Bool :=
  c = ' ' || c = '\t' || c = '\n' || c = '\x0B' || c = '\x0C' || c = '\r' ||
    c = '\x85' || c = Char.ofNat 0xA0

/-- Go `strings.TrimSpace`: drop leading and trailing whitespace. -/
def trimSpace (s : String) : String :=
  String.mk (((s.toList.dropWhile goIsSpace).reverse.dropWhile goIsSpace).reverse)

/-- Core of Go `strings.Split(s, sep)` for a one-character separator, on the
character list: splits around every occurrence of `sep`, keeping empty
segments; the empty input yields one empty segment, exactly as in Go. -/
def splitListOnChar (sep : Char) : List Char → List (List Char)
  | [] => [[]]
  | c :: rest =>
    let r := splitListOnChar sep rest
    if c = sep then [] :: r
    else
      match r with
      | [] => [[c]]
      | h :: t => (c :: h) :: t

/-- Go `strings.Split(s, ":")`. -/
def goSplitColon (s : String) : List String :=
  (splitListOnChar ':' s.toList).map String.mk

/-- Go `strings.HasSuffix(s, suf)`. -/
def goHasSuffix (s suf : String) : Bool :=
  suf.toList == s.toList.drop (s.toList.length - suf.toList.length)

/-- Go `strings.HasPrefix(s, pre)`. -/
def goStartsWith (s pre : String) : Bool :=
  pre.toList == s.toList.take pre.toList.length

/-- Bytes of an ASCII string, matching Go's byte view of the string. -/
def bytesOfString (s : String) : List Nat :=
  s.toList.map Char.toNat

/-- Go `string(bytes)` for the byte ranges exercised here. -/
def stringOfBytes (bs : List Nat) : String :=
  String.mk (bs.map Char.ofNat)

/-! ## Base64 (Go `encoding/base64` standard encoding with padding) -/

/-- Value of one standard-alphabet base64 character. -/
def base64CharVal (c : Char) : Option Nat :=
  if 'A' ≤ c && c ≤ 'Z' then some (c.toNat - 65)
  else if 'a' ≤ c && c ≤ 'z' then some (c.toNat - 97 + 26)
  else if '0' ≤ c && c ≤ '9' then some (c.toNat - 48 + 52)
  else if c = '+' then some 62
  else if c = '/' then some 63
  else none

def base64Alphabet : List Char :=
  "ABCDEFGHIJKLMNOPQRSTUVWXYZabcdefghijklmnopqrstuvwxyz0123456789+/".toList

def base64CharOfVal (v : Nat) : Char :=
  base64Alphabet.getD v 'A'

/-- Encoder for `base64.StdEncoding.EncodeToString`: three input bytes per
four output characters, `=`-padded tail. -/
def base64EncodeGroups : List Nat → List Char
  | [] => []
  | [b0] =>
    [base64CharOfVal (b0 / 4), base64CharOfVal (b0 % 4 * 16), '=', '=']
  | [b0, b1] =>
    [base64CharOfVal (b0 / 4), base64CharOfVal (b0 % 4 * 16 + b1 / 16),
      base64CharOfVal (b1 % 16 * 4), '=']
  | b0 :: b1 :: b2 :: rest =>
    base64CharOfVal (b0 / 4) :: base64CharOfVal (b0 % 4 * 16 + b1 / 16) ::
      base64CharOfVal (b1 % 16 * 4 + b2 / 64) :: base64CharOfVal (b2 % 64) ::
        base64EncodeGroups rest

def base64StdEncode (bs : List Nat) : String :=
  String.mk (base64EncodeGroups bs)

/-- Decode one final base64 quadruple, honouring `=` padding.  As in Go's
non-strict standard decoding, unused trailing bits are discarded without
being checked. -/
def base64DecodeLastGroup (a b c d : Char) : Option (List Nat) :=
  match base64CharVal a, base64CharVal b with
  | some va, some vb =>
    if c = '=' && d = '=' then
      some [va * 4 + vb / 16]
    else if d = '=' then
      match base64CharVal c with
      | some vc => some [va * 4 + vb / 16, vb % 16 * 16 + vc / 4]
      | none => none
    else
      match base64CharVal c, base64CharVal d with
      | some vc, some vd =>
        some [va * 4 + vb / 16, vb % 16 * 16 + vc / 4, vc % 4 * 64 + vd]
      | _, _ => none
  | _, _ => none

/-- Decoder for `base64.StdEncoding.DecodeString`: input length must be a
multiple of four, padding may appear only in the final quadruple; any other
shape is a decode error (`none`). -/
def base64DecodeChunks : List Char → Option (List Nat)
  | [] => some []
  | a :: b :: c :: d :: rest =>
    if rest.isEmpty then base64DecodeLastGroup a b c d
    else
      match base64CharVal a, base64CharVal b, base64CharVal c, base64CharVal d,
          base64DecodeChunks rest with
      | some va, some vb, some vc, some vd, some tail =>
        some ((va * 4 + vb / 16) :: (vb % 16 * 16 + vc / 4) :: (vc % 4 * 64 + vd) :: tail)
      | _, _, _, _, _ => none
  | _ => none

def base64StdDecode (s : String) : Option (List Nat) :=
  base64DecodeChunks s.toList

/-! ## CredentialResolver (`callS3Provider`, webseed.go lines 203-222)

The credential-resolution head of `callS3Provider` before any network
activity.  The Go code indexes `l[0]`, `l[1]`, `l[2]` of the payload split
*before* checking `len(l) != 3`; with fewer than three parts this is a
runtime index-out-of-range panic, modelled by the dedicated
`indexOutOfRange` outcome. -/

inductive S3TokenResult where
  /-- `token has invalid format, exepcing 'v1:tokenInBase64'` (line 208). -/
  | topFormatError
  /-- `not supported version: %s` (line 212). -/
  | unsupportedVersion (version : String)
  /-- `base64.StdEncoding.DecodeString` error returned at line 216. -/
  | base64DecodeError
  /-- `token has invalid format, exepcing 'accountId:accessKeyId:accessKeySecret'` (line 221). -/
  | credsFormatError
  /-- Runtime panic: `l[1]` or `l[2]` out of range at line 219. -/
  | indexOutOfRange
  /-- Successfully extracted credentials. -/
  | ok (accountId accessKeyId accessKeySecret : String)
deriving DecidableEq

def resolveS3Token (token : String) : S3TokenResult :=
  let l := goSplitColon token
  if l.length ≠ 2 then .topFormatError
  else
    let version := trimSpace (l.getD 0 "")
    let tokenInBase64 := trimSpace (l.getD 1 "")
    if version ≠ "v1" then .unsupportedVersion version
    else
      match base64StdDecode tokenInBase64 with
      | none => .base64DecodeError
      | some rawDecodedText =>
        let parts := goSplitColon (stringOfBytes rawDecodedText)
        match parts.get? 0, parts.get? 1, parts.get? 2 with
        | some p0, some p1, some p2 =>
          if parts.length ≠ 3 then .credsFormatError
          else .ok (trimSpace p0) (trimSpace p1) (trimSpace p2)
        | _, _, _ => .indexOutOfRange

example : base64StdEncode (bytesOfString "acc:key:secret") = "YWNjOmtleTpzZWNyZXQ=" := by decide
example : base64StdDecode "YWNjOmtleTpzZWNyZXQ=" = some (bytesOfString "acc:key:secret") := by decide
example : resolveS3Token "v1:YWNjOmtleTpzZWNyZXQ=" = .ok "acc" "key" "secret" := by decide
example : resolveS3Token "v1:YWNj" = .indexOutOfRange := by decide
example : resolveS3Token "v2:YWNj" = .unsupportedVersion "v2" := by decide
example : resolveS3Token "nocolon" = .topFormatError := by decide
example : goSplitColon "" = [""] := by decide
example : goSplitColon "a::b" = ["a", "", "b"] := by decide

/-! ## ProviderAggregator (`downloadWebseedTomlFromProviders`, webseed.go lines 50-113)

Provider fetches (`callHttpProvider`, the S3 `GetObject`, `readWebSeedsFile`)
are external effects; each provider's outcome is given as an oracle value
`Option ProviderDoc`, where `none` is the per-provider error path that the
loop logs and skips.  `url.ParseRequestURI` is likewise an external
collaborator, abstracted as a `String → Option URL` parameter. -/

/-- Result of `url.ParseRequestURI`, kept abstract: the coordinator only
stores the parsed value. -/
structure URL where
  raw : String
deriving DecidableEq

/-- One provider-list document: the flat name-to-URL mapping decoded from one
provider.  A Go map has at most one URL per name; the list order stands for
its iteration order, which never interleaves two entries of the same name. -/
abbrev ProviderDoc := List (String × String)

/-- The two classified maps built by one discovery pass.  Go maps with
`append` updates are modelled as total functions defaulting to `[]`. -/
structure WebSeedMaps where
  byFileName : String → List String
  torrentUrls : String → List URL

/-- The `WebSeeds` struct fields relevant to the claims (webseed.go lines
33-43); `lock` becomes the atomicity of each publish/read step. -/
structure WebSeedsState where
  byFileName : String → List String
  torrentUrls : String → List URL
  downloadTorrentFile : Bool
  chainName : String

def emptyMaps : WebSeedMaps := ⟨fun _ => [], fun _ => []⟩

/-- Outcomes of the provider calls in one discovery pass, in source order:
HTTP providers (lines 53-65), S3 providers (lines 66-78), disk providers
(lines 80-91).  `none` is a fetch/decode error. -/
structure DiscoveryInput where
  httpResults : List (Option ProviderDoc)
  s3Results : List (Option ProviderDoc)
  diskResults : List (Option ProviderDoc)

/-- One sequential provider loop (webseed.go lines 53-65 and 66-78).
`cancelled i` is whether `ctx.Done()` is closed when provider `i` is
visited.  The Go check is `select { case <-ctx.Done(): break; default: }`;
that `break` terminates only the `select` statement, not the `for` loop, so
the loop body proceeds to the fetch regardless — the check is embedded as a
discarded value.  Returns the collected documents and the indices of the
providers for which a fetch was issued. -/
def visitProvidersFrom (cancelled : Nat → Bool) :
    Nat → List (Option ProviderDoc) → List ProviderDoc × List Nat
  | _, [] => ([], [])
  | i, r :: rest =>
    let _doneCheck := cancelled i
    let tail := visitProvidersFrom cancelled (i + 1) rest
    match r with
    | none => (tail.1, i :: tail.2)
    | some doc => (doc :: tail.1, i :: tail.2)

/-- Indices of HTTP providers for which a fetch is issued. -/
def httpProvidersFetched (inp : DiscoveryInput) (cancelledHttp : Nat → Bool) : List Nat :=
  (visitProvidersFrom cancelledHttp 0 inp.httpResults).2

/-- Indices of object-storage providers for which a fetch is issued. -/
def s3ProvidersFetched (inp : DiscoveryInput) (cancelledS3 : Nat → Bool) : List Nat :=
  (visitProvidersFrom cancelledS3 0 inp.s3Results).2

/-- The `list` built by webseed.go lines 52-91: HTTP providers first, then
S3 providers, then disk files (whose loop has no cancellation check). -/
def collectedProviderDocs (inp : DiscoveryInput)
    (cancelledHttp cancelledS3 : Nat → Bool) : List ProviderDoc :=
  (visitProvidersFrom cancelledHttp 0 inp.httpResults).1
    ++ (visitProvidersFrom cancelledS3 0 inp.s3Results).1
    ++ inp.diskResults.filterMap id

/-- `m[k] = append(m[k], v)` on the function model of a Go map. -/
def appendAt {α : Type} (m : String → List α) (k : String) (v : α) : String → List α :=
  fun n => if n = k then m n ++ [v] else m n

/-- Body of the classification loop (webseed.go lines 95-106) for one
`(name, wUrl)` entry. -/
def mergeWebseedEntry (parse : String → Option URL) (acc : WebSeedMaps)
    (e : String × String) : WebSeedMaps :=
  if goHasSuffix e.1 ".torrent" then
    match parse e.2 with
    | none => acc
    | some uri => { acc with torrentUrls := appendAt acc.torrentUrls e.1 uri }
  else
    { acc with byFileName := appendAt acc.byFileName e.1 e.2 }

/-- The merge loop over all collected documents (webseed.go lines 93-107). -/
def mergeProviderDocs (parse : String → Option URL) (docs : List ProviderDoc) : WebSeedMaps :=
  docs.foldl (fun acc doc => doc.foldl (mergeWebseedEntry parse) acc) emptyMaps

/-- Maps produced by one discovery pass, before publication. -/
def discoveredMaps (parse : String → Option URL) (inp : DiscoveryInput)
    (cancelledHttp cancelledS3 : Nat → Bool) : WebSeedMaps :=
  mergeProviderDocs parse (collectedProviderDocs inp cancelledHttp cancelledS3)

/-- The critical section at webseed.go lines 109-112: both maps are assigned
under one `d.lock` acquisition.  Each application is one atomic publish. -/
def publishMaps (st : WebSeedsState) (m : WebSeedMaps) : WebSeedsState :=
  { st with byFileName := m.byFileName, torrentUrls := m.torrentUrls }

/-- `downloadWebseedTomlFromProviders` end to end: collect, merge, publish.
The Go function returns nothing and swallows every per-provider error; the
model is accordingly total. -/
def downloadWebseedTomlFromProviders (parse : String → Option URL)
    (inp : DiscoveryInput) (cancelledHttp cancelledS3 : Nat → Bool)
    (st : WebSeedsState) : WebSeedsState :=
  publishMaps st (discoveredMaps parse inp cancelledHttp cancelledS3)

/-- Accessor `TorrentUrls` (webseed.go lines 168-172), reading under the
same lock. -/
def TorrentUrls (st : WebSeedsState) : String → List URL :=
  st.torrentUrls

/-- Accessor `ByFileName` (webseed.go lines 180-185): the Go two-value map
read `v, ok := d.byFileName[name]`; a key is present exactly when some entry
was appended, hence presence is nonemptiness in the function model. -/
def ByFileName (st : WebSeedsState) (name : String) : List String × Bool :=
  (st.byFileName name, !(st.byFileName name).isEmpty)

/-! ## TorrentMirrorCoordinator (`downloadTorrentFilesFromProviders`,
webseed.go lines 116-166, and `callTorrentHttpProvider`, lines 259-282)

The filesystem is a list of (path, bytes) entries, newest first; a path is
the `filepath.Join(rootDir, name)` pair, kept as a pair so that distinct
names give distinct paths (the concrete names involved contain no `..` or
separator cleaning).  HTTP responses come from a fetch oracle; the bencode
decoder behind `validateTorrentBytes` is the external collaborator
`validateOk`. -/

structure FsPath where
  dir : String
  file : String
deriving DecidableEq

abbrev FS := List (FsPath × List Nat)

/-- Fetch log: `(name, url)` for every `callTorrentHttpProvider` call. -/
abbrev TorrentLog := List (String × URL)

def fsExists (fs : FS) (p : FsPath) : Bool :=
  fs.any (fun e => e.1 == p)

def fsGet (fs : FS) (p : FsPath) : Option (List Nat) :=
  (fs.find? (fun e => e.1 == p)).map (fun e => e.2)

/-- What the HTTP client hands back for one mirror GET: the advertised
`resp.ContentLength` (`-1` when unknown, e.g. chunked) and the body bytes. -/
structure HttpResponse where
  contentLength : Int
  body : List Nat
deriving DecidableEq

/-- Outcome of `http.DefaultClient.Do` for one mirror. -/
inductive FetchResult where
  | requestError
  | fetched (resp : HttpResponse)
deriving DecidableEq

/-- The `([]byte, error)` pair returned by `callTorrentHttpProvider`:
`err` is a non-nil error, `okNone` is the `(nil, nil)` return of the size
gate at line 272, `okBytes` is a validated body. -/
inductive CallResult where
  | err
  | okNone
  | okBytes (res : List Nat)
deriving DecidableEq

/-- `datasize.MB` in bytes. -/
def mbSize : Int := 1048576

/-- `callTorrentHttpProvider` (webseed.go lines 259-282).  After a successful
request: the size gate `ContentLength == 0 || ContentLength > 128MB` returns
`(nil, nil)`; otherwise the whole body is read and `validateTorrentBytes`
(the bencode decode, abstracted as `validateOk`) decides between the bytes
and an error. -/
def callTorrentHttpProvider (validateOk : List Nat → Bool) (r : FetchResult) : CallResult :=
  match r with
  | .requestError => .err
  | .fetched resp =>
    if resp.contentLength = 0 ∨ resp.contentLength > 128 * mbSize then .okNone
    else if validateOk resp.body then .okBytes resp.body
    else .err

/-- Modelled from the spec: `saveTorrent` is called at webseed.go line 154
but defined outside this source tree.  Per §4.4 and §6 of the spec it
persists the received bytes at the target path by writing a temporary file
and atomically renaming it into place, so absent an environmental disk
failure (`diskFails`, the §7 PersistError case) it succeeds and the file at
the path holds exactly the given bytes. -/
def saveTorrent (diskFails : Bool) (fs : FS) (path : FsPath) (res : List Nat) : Option FS :=
  if diskFails then none else some ((path, res) :: fs)

/-- The per-name task body (webseed.go lines 146-161): try each mirror in
order; a fetch error is logged and skipped; otherwise `saveTorrent` runs on
whatever bytes came back (`nil` in the `okNone` case) and a save error is
also logged and skipped; the first successful save ends the task.  Returns
the filesystem and the mirrors actually fetched. -/
def runTorrentTask (validateOk : List Nat → Bool) (fetch : URL → FetchResult)
    (diskFails : Bool) (fs₀ : FS) (tPath : FsPath) : List URL → FS × List URL
  | [] => (fs₀, [])
  | u :: rest =>
    match callTorrentHttpProvider validateOk (fetch u) with
    | .err =>
      let t := runTorrentTask validateOk fetch diskFails fs₀ tPath rest
      (t.1, u :: t.2)
    | .okNone =>
      match saveTorrent diskFails fs₀ tPath [] with
      | none =>
        let t := runTorrentTask validateOk fetch diskFails fs₀ tPath rest
        (t.1, u :: t.2)
      | some fs₁ => (fs₁, [u])
    | .okBytes res =>
      match saveTorrent diskFails fs₀ tPath res with
      | none =>
        let t := runTorrentTask validateOk fetch diskFails fs₀ tPath rest
        (t.1, u :: t.2)
      | some fs₁ => (fs₁, [u])

/-- `fName` of `filepath.Split(name)`: everything after the final slash. -/
def baseFileName (name : String) : String :=
  String.mk ((splitListOnChar '/' name.toList).getLastD [])

/-- The forward-compatibility guard at webseed.go lines 137-143. -/
def reservedFamilySkip (name : String) : Bool :=
  (goHasSuffix name ".v.torrent" || goHasSuffix name ".ef.torrent")
    && goStartsWith (baseFileName name) "commitment"

/-- One iteration of the loop over the torrent-map snapshot (webseed.go
lines 131-162): skip when the file exists on disk, skip reserved families,
otherwise run the mirror task.  Tasks run concurrently in Go but each one
touches only its own `rootDir/name` path, so folding them sequentially
preserves every per-path observation. -/
def processTorrentEntry (validateOk : List Nat → Bool) (fetch : URL → FetchResult)
    (diskFails : Bool) (rootDir : String) (acc : FS × TorrentLog)
    (e : String × List URL) : FS × TorrentLog :=
  let tPath : FsPath := ⟨rootDir, e.1⟩
  if fsExists acc.1 tPath then acc
  else if reservedFamilySkip e.1 then acc
  else
    let t := runTorrentTask validateOk fetch diskFails acc.1 tPath e.2
    (t.1, acc.2 ++ t.2.map (fun u => (e.1, u)))

/-- `downloadTorrentFilesFromProviders` (webseed.go lines 116-166): no-op
when the feature is off or the torrent map snapshot is empty, else one task
per missing name.  The snapshot is the map as a (key, value) list. -/
def downloadTorrentFilesFromProviders (validateOk : List Nat → Bool)
    (fetch : URL → FetchResult) (diskFails : Bool) (downloadTorrentFile : Bool)
    (torrentUrlsByName : List (String × List URL)) (rootDir : String)
    (fs : FS) : FS × TorrentLog :=
  if !downloadTorrentFile then (fs, [])
  else if torrentUrlsByName.length = 0 then (fs, [])
  else torrentUrlsByName.foldl (processTorrentEntry validateOk fetch diskFails rootDir) (fs, [])

example :
    runTorrentTask (fun _ => true)
      (fun u => if u = ⟨"m1"⟩ then .fetched ⟨0, []⟩ else .fetched ⟨20, [1, 2]⟩)
      false [] ⟨"root", "a.torrent"⟩ [⟨"m1"⟩, ⟨"m2"⟩]
    = ([(⟨"root", "a.torrent"⟩, [])], [⟨"m1"⟩]) := by decide

example :
    downloadTorrentFilesFromProviders (fun _ => true) (fun _ => .fetched ⟨20, [1]⟩)
      false true [("a.torrent", [⟨"m1"⟩])] "root" [(⟨"root", "a.torrent"⟩, [7])]
    = ([(⟨"root", "a.torrent"⟩, [7])], []) := by decide

example : reservedFamilySkip "history/commitment.0-1.v.torrent" = true := by decide
example : reservedFamilySkip "history/accounts.0-1.v.torrent" = false := by decide

/-! ## Claim theorems -/

/-- Claim C10: a mirror response whose advertised content length is negative
(unknown) passes the size gate — the full body is read and structurally
validated, with no upper bound enforced — and the gate fires exactly for
content lengths equal to 0 or greater than 128 MiB. -/
theorem negative_content_length_passes_gate (validateOk : List Nat → Bool)
    (resp : HttpResponse) :
    (resp.contentLength < 0 →
      callTorrentHttpProvider validateOk (.fetched resp)
        = if validateOk resp.body then .okBytes resp.body else .err)
  ∧ (callTorrentHttpProvider validateOk (.fetched resp) = .okNone
      ↔ resp.contentLength = 0 ∨ resp.contentLength > 128 * mbSize) := by
  constructor
  · intro h
    have hc : ¬(resp.contentLength = 0 ∨ resp.contentLength > 128 * mbSize) := by
      simp only [mbSize]
      omega
    simp [callTorrentHttpProvider, hc]
  · by_cases hc : resp.contentLength = 0 ∨ resp.contentLength > 128 * mbSize
    · simp [callTorrentHttpProvider, hc]
    · simp only [callTorrentHttpProvider, if_neg hc]
      constructor
      · intro hval
        by_cases hv : validateOk resp.body <;> simp [hv] at hval
      · intro hval
        exact absurd hval hc

/-- Closed instance of `negative_content_length_passes_gate`: a chunked
response (content length `-1`) is fully read and validated, and a zero
content length triggers the gate. -/
theorem negative_content_length_passes_gate_witness :
    callTorrentHttpProvider (fun _ => true) (.fetched ⟨-1, [1, 2, 3]⟩) = .okBytes [1, 2, 3]
  ∧ callTorrentHttpProvider (fun _ => true) (.fetched ⟨0, []⟩) = .okNone :=
  ⟨((negative_content_length_passes_gate (fun _ => true) ⟨-1, [1, 2, 3]⟩).1
      (by decide)).trans (by decide),
   (negative_content_length_passes_gate (fun _ => true) ⟨0, []⟩).2.mpr (Or.inl rfl)⟩

/-- Claim C1 (divergence witness): for the name `a.torrent` with mirror list
`[m1, m2]`, where `m1` answers with content length 0 and `m2` would answer
with a valid descriptor, the coordinator persists a zero-byte file at
`rootDir/a.torrent` taken from the rejected mirror `m1` and never fetches
`m2` — because the size gate at webseed.go line 272 returns `(nil, nil)`,
which the task loop at lines 148-158 treats as a successful download.  The
claim states that nothing is persisted from `m1` and that `m2` is tried. -/
theorem size_rejected_mirror_persists_empty_file :
    downloadTorrentFilesFromProviders (fun _ => true)
      (fun u => if u = ⟨"http://m1/a.torrent"⟩ then .fetched ⟨0, []⟩
        else .fetched ⟨20, [100, 101]⟩)
      false true [("a.torrent", [⟨"http://m1/a.torrent"⟩, ⟨"http://m2/a.torrent"⟩])]
      "root" []
    = ([(⟨"root", "a.torrent"⟩, [])], [("a.torrent", ⟨"http://m1/a.torrent"⟩)])
  ∧ fsGet
      (downloadTorrentFilesFromProviders (fun _ => true)
        (fun u => if u = ⟨"http://m1/a.torrent"⟩ then .fetched ⟨0, []⟩
          else .fetched ⟨20, [100, 101]⟩)
        false true [("a.torrent", [⟨"http://m1/a.torrent"⟩, ⟨"http://m2/a.torrent"⟩])]
        "root" []).1
      ⟨"root", "a.torrent"⟩ = some [] := by
  constructor <;> decide

/-- Claim C2 (divergence witness): the token `v1:YWNj` has version `v1` and a
base64 payload that decodes successfully to `acc`, which splits on `:` into
one part, not three; `callS3Provider` indexes `l[1]` at webseed.go line 219
before the length check at line 220, an index-out-of-range runtime panic —
not the format error the claim requires.  A payload with more than three
parts does reach the check and gets the format error. -/
theorem short_payload_token_panics :
    base64StdDecode "YWNj" = some (bytesOfString "acc")
  ∧ (goSplitColon "acc").length = 1
  ∧ resolveS3Token "v1:YWNj" = .indexOutOfRange
  ∧ resolveS3Token ("v1:" ++ base64StdEncode (bytesOfString "a:b:c:d")) = .credsFormatError := by
  refine ⟨by decide, by decide, by decide, by decide⟩

/-- Claim C3 (divergence witness): with the context cancelled before the
pass begins, the provider loops still issue a fetch for every HTTP provider
and every object-storage provider in the visit order — the `break` in
`select { case <-ctx.Done(): break; default: }` (webseed.go lines 54-58 and
67-71) terminates only the `select`, so no provider is skipped.  The claim
requires the fetched index lists to be empty. -/
theorem cancelled_discovery_still_fetches :
    httpProvidersFetched ⟨[none, none], [none], []⟩ (fun _ => true) = [0, 1]
  ∧ s3ProvidersFetched ⟨[none, none], [none], []⟩ (fun _ => true) = [0] := by
  constructor <;> rfl

/-- Claim C7: `"v1:" ++ base64("acc:key:secret")` resolves to the three
credentials (whitespace trimmed from every extracted field, as the second
conjunct shows on a whitespace-laden payload); a two-part token whose
trimmed version is not `v1` fails with the unsupported-version error; a
token that does not split on `:` into exactly two parts fails with the
top-level format error. -/
theorem token_decode_roundtrip :
    resolveS3Token ("v1:" ++ base64StdEncode (bytesOfString "acc:key:secret"))
      = .ok "acc" "key" "secret"
  ∧ resolveS3Token ("v1:" ++ base64StdEncode (bytesOfString " acc\t:key :\nsecret "))
      = .ok "acc" "key" "secret"
  ∧ (∀ t : String, (goSplitColon t).length = 2 →
      trimSpace ((goSplitColon t).getD 0 "") ≠ "v1" →
      resolveS3Token t = .unsupportedVersion (trimSpace ((goSplitColon t).getD 0 "")))
  ∧ (∀ t : String, (goSplitColon t).length ≠ 2 →
      resolveS3Token t = .topFormatError) := by
  refine ⟨by decide, by decide, ?_, ?_⟩
  · intro t h1 h2
    simp only [resolveS3Token]
    rw [if_neg (fun hcon => hcon h1), if_pos h2]
  · intro t h
    simp only [resolveS3Token]
    rw [if_pos h]

/-- Closed instance of `token_decode_roundtrip`: `v2:YWJj` fails with the
unsupported-version error and the colon-free token `v1` fails with the
format error. -/
theorem token_decode_roundtrip_witness :
    resolveS3Token "v2:YWJj" = .unsupportedVersion "v2"
  ∧ resolveS3Token "v1" = .topFormatError :=
  ⟨(token_decode_roundtrip.2.2.1 "v2:YWJj" (by decide) (by decide)).trans (by decide),
   token_decode_roundtrip.2.2.2 "v1" (by decide)⟩

/-! ## Merge characterization lemmas -/

/-- The torrent-map entries a list of `(name, url)` pairs contributes at
`name`: parsed URLs of the entries carrying `name` with the descriptor
suffix, parse failures dropped. -/
def torrentUrlsFor (parse : String → Option URL) (name : String)
    (es : List (String × String)) : List URL :=
  es.filterMap (fun e =>
    if e.1 = name ∧ goHasSuffix e.1 ".torrent" = true then parse e.2 else none)

/-- The webseed-map entries a list of `(name, url)` pairs contributes at
`name`: the raw URLs of the entries carrying `name` without the suffix. -/
def webseedUrlsFor (name : String) (es : List (String × String)) : List String :=
  (es.filter (fun e => e.1 = name ∧ ¬goHasSuffix e.1 ".torrent" = true)).map Prod.snd

theorem foldl_mergeEntry_torrentUrls (parse : String → Option URL)
    (es : List (String × String)) :
    ∀ (m : WebSeedMaps) (name : String),
      ((es.foldl (mergeWebseedEntry parse) m).torrentUrls name)
        = m.torrentUrls name ++ torrentUrlsFor parse name es := by
  induction es with
  | nil => intro m name; simp [torrentUrlsFor]
  | cons e es ih =>
    intro m name
    rw [List.foldl_cons, ih]
    simp only [torrentUrlsFor, List.filterMap_cons]
    by_cases hs : goHasSuffix e.1 ".torrent" = true
    · cases hp : parse e.2 with
      | none => simp [mergeWebseedEntry, hs, hp]
      | some u =>
        by_cases hn : e.1 = name
        · subst hn
          simp [mergeWebseedEntry, hs, hp, appendAt]
        · have hn2 : ¬(name = e.1) := fun hcon => hn hcon.symm
          simp [mergeWebseedEntry, hs, hp, appendAt, hn, hn2]
    · simp [mergeWebseedEntry, hs]

theorem foldl_mergeEntry_byFileName (parse : String → Option URL)
    (es : List (String × String)) :
    ∀ (m : WebSeedMaps) (name : String),
      ((es.foldl (mergeWebseedEntry parse) m).byFileName name)
        = m.byFileName name ++ webseedUrlsFor name es := by
  induction es with
  | nil => intro m name; simp [webseedUrlsFor]
  | cons e es ih =>
    intro m name
    rw [List.foldl_cons, ih]
    simp only [webseedUrlsFor, List.filter_cons]
    by_cases hs : goHasSuffix e.1 ".torrent" = true
    · cases hp : parse e.2 with
      | none => simp [mergeWebseedEntry, hs, hp]
      | some u => simp [mergeWebseedEntry, hs, hp]
    · by_cases hn : e.1 = name
      · subst hn
        simp [mergeWebseedEntry, hs, appendAt]
      · have hn2 : ¬(name = e.1) := fun hcon => hn hcon.symm
        simp [mergeWebseedEntry, hs, appendAt, hn, hn2]

theorem mergeProviderDocs_eq_foldl_join (parse : String → Option URL)
    (docs : List ProviderDoc) :
    mergeProviderDocs parse docs
      = (docs.flatten).foldl (mergeWebseedEntry parse) emptyMaps := by
  suffices h : ∀ (ds : List ProviderDoc) (m : WebSeedMaps),
      ds.foldl (fun acc doc => doc.foldl (mergeWebseedEntry parse) acc) m
        = (ds.flatten).foldl (mergeWebseedEntry parse) m by
    exact h docs emptyMaps
  intro ds
  induction ds with
  | nil => intro m; simp
  | cons d ds ih => intro m; simp [List.foldl_append, ih]

/-- Claim C5: pointwise classification of the merge loop.  At every `name`,
the torrent map holds exactly the parsed URLs of the suffix-bearing entries
(an entry whose URL fails to parse contributes nothing while the rest of its
document still merges), and the webseed map holds exactly the raw URL
strings of the non-suffix entries, in document order. -/
theorem merge_classification (parse : String → Option URL)
    (docs : List ProviderDoc) (name : String) :
    (mergeProviderDocs parse docs).torrentUrls name
      = torrentUrlsFor parse name docs.flatten
  ∧ (mergeProviderDocs parse docs).byFileName name
      = webseedUrlsFor name docs.flatten := by
  rw [mergeProviderDocs_eq_foldl_join]
  exact ⟨by rw [foldl_mergeEntry_torrentUrls]; rfl,
    by rw [foldl_mergeEntry_byFileName]; rfl⟩

theorem visitProviders_map_some (c : Nat → Bool) (docs : List ProviderDoc) :
    ∀ i : Nat, (visitProvidersFrom c i (docs.map some)).1 = docs := by
  induction docs with
  | nil => intro i; rfl
  | cons d ds ih => intro i; simp [visitProvidersFrom, ih]

/-- Claim C6: with every provider succeeding, the merged webseed list for a
name is the concatenation of the HTTP providers' contributions, then the
object-storage providers', then the local-file providers' — every provider's
URL is kept (appended, never overwritten) in provider visit order — and
symmetrically for the torrent map; in particular any URL a provider offers
for a non-descriptor name is in the merged list. -/
theorem merge_append_provider_order (parse : String → Option URL)
    (cancelledHttp cancelledS3 : Nat → Bool)
    (httpDocs s3Docs diskDocs : List ProviderDoc) (name : String) :
    ((discoveredMaps parse ⟨httpDocs.map some, s3Docs.map some, diskDocs.map some⟩
        cancelledHttp cancelledS3).byFileName name
      = webseedUrlsFor name httpDocs.flatten ++ webseedUrlsFor name s3Docs.flatten
          ++ webseedUrlsFor name diskDocs.flatten)
  ∧ ((discoveredMaps parse ⟨httpDocs.map some, s3Docs.map some, diskDocs.map some⟩
        cancelledHttp cancelledS3).torrentUrls name
      = torrentUrlsFor parse name httpDocs.flatten
          ++ torrentUrlsFor parse name s3Docs.flatten
          ++ torrentUrlsFor parse name diskDocs.flatten)
  ∧ (∀ u : String, (name, u) ∈ (httpDocs ++ s3Docs ++ diskDocs).flatten →
      ¬goHasSuffix name ".torrent" = true →
      u ∈ (discoveredMaps parse ⟨httpDocs.map some, s3Docs.map some, diskDocs.map some⟩
        cancelledHttp cancelledS3).byFileName name) := by
  have hdocs : collectedProviderDocs
      ⟨httpDocs.map some, s3Docs.map some, diskDocs.map some⟩ cancelledHttp cancelledS3
      = httpDocs ++ s3Docs ++ diskDocs := by
    simp [collectedProviderDocs, visitProviders_map_some, List.filterMap_map,
      List.append_assoc]
  have hchar := merge_classification parse
    (collectedProviderDocs ⟨httpDocs.map some, s3Docs.map some, diskDocs.map some⟩
      cancelledHttp cancelledS3) name
  rw [hdocs] at hchar
  refine ⟨?_, ?_, ?_⟩
  · rw [discoveredMaps, hdocs, hchar.2]
    simp [webseedUrlsFor, List.flatten_append, List.filter_append, List.append_assoc]
  · rw [discoveredMaps, hdocs, hchar.1]
    simp [torrentUrlsFor, List.flatten_append, List.filterMap_append, List.append_assoc]
  · intro u hu hsuf
    rw [discoveredMaps, hdocs, hchar.2, webseedUrlsFor]
    refine List.mem_map.2 ⟨(name, u), List.mem_filter.2 ⟨hu, ?_⟩, rfl⟩
    simp [hsuf]

/-- Closed instance of `merge_append_provider_order`: two providers each
offering a mirror for the file name `f` yield a merged list containing both
URLs in provider-visit order. -/
theorem merge_append_provider_order_witness :
    (discoveredMaps (fun _ => none)
        ⟨[[("f", "u1")]].map some, [[("f", "u2")]].map some, ([] : List ProviderDoc).map some⟩
        (fun _ => false) (fun _ => false)).byFileName "f" = ["u1", "u2"]
  ∧ "u2" ∈ (discoveredMaps (fun _ => none)
        ⟨[[("f", "u1")]].map some, [[("f", "u2")]].map some, ([] : List ProviderDoc).map some⟩
        (fun _ => false) (fun _ => false)).byFileName "f" :=
  ⟨((merge_append_provider_order (fun _ => none) (fun _ => false) (fun _ => false)
      [[("f", "u1")]] [[("f", "u2")]] [] "f").1).trans (by decide),
   (merge_append_provider_order (fun _ => none) (fun _ => false) (fun _ => false)
      [[("f", "u1")]] [[("f", "u2")]] [] "f").2.2 "u2" (by decide) (by decide)⟩

theorem visitProviders_all_none (c : Nat → Bool) (results : List (Option ProviderDoc)) :
    ∀ i : Nat, (∀ r ∈ results, r = none) → (visitProvidersFrom c i results).1 = [] := by
  induction results with
  | nil => intro i _; rfl
  | cons r rs ih =>
    intro i h
    have hr : r = none := h r (List.mem_cons_self r rs)
    subst hr
    simp [visitProvidersFrom, ih (i + 1) (fun x hx => h x (List.mem_cons_of_mem _ hx))]

/-- Claim C8: when every configured provider's fetch or decode fails, the
discovery pass still completes (the Go function has no error return and
swallows every per-provider error) and publishes two empty maps, replacing
whatever pair the previous state held. -/
theorem all_providers_fail_publishes_empty (parse : String → Option URL)
    (cancelledHttp cancelledS3 : Nat → Bool) (st : WebSeedsState)
    (hr sr dr : List (Option ProviderDoc))
    (h1 : ∀ r ∈ hr, r = none) (h2 : ∀ r ∈ sr, r = none) (h3 : ∀ r ∈ dr, r = none) :
    ∀ name : String,
      (downloadWebseedTomlFromProviders parse ⟨hr, sr, dr⟩ cancelledHttp cancelledS3
          st).byFileName name = []
    ∧ (downloadWebseedTomlFromProviders parse ⟨hr, sr, dr⟩ cancelledHttp cancelledS3
          st).torrentUrls name = [] := by
  intro name
  have hh := visitProviders_all_none cancelledHttp hr 0 h1
  have hs := visitProviders_all_none cancelledS3 sr 0 h2
  have hd : dr.filterMap id = [] := List.filterMap_eq_nil_iff.2 h3
  simp [downloadWebseedTomlFromProviders, publishMaps, discoveredMaps,
    collectedProviderDocs, hh, hs, hd, mergeProviderDocs, emptyMaps]

/-- Example state published by an earlier pass, used to exhibit wholesale
replacement. -/
def previousState : WebSeedsState where
  byFileName := fun _ => ["http://old/data"]
  torrentUrls := fun _ => [⟨"http://old/data.torrent"⟩]
  downloadTorrentFile := true
  chainName := "mainnet"

/-- Closed instance of `all_providers_fail_publishes_empty`: one failing
provider of each kind, a non-empty previously published pair — the new
published maps are empty at a sample name. -/
theorem all_providers_fail_publishes_empty_witness :
    (downloadWebseedTomlFromProviders (fun _ => none) ⟨[none], [none], [none]⟩
        (fun _ => false) (fun _ => false) previousState).byFileName "x.seg" = []
  ∧ (downloadWebseedTomlFromProviders (fun _ => none) ⟨[none], [none], [none]⟩
        (fun _ => false) (fun _ => false) previousState).torrentUrls "x.torrent" = [] :=
  ⟨(all_providers_fail_publishes_empty (fun _ => none) (fun _ => false) (fun _ => false)
      previousState [none] [none] [none] (by simp) (by simp) (by simp) "x.seg").1,
   (all_providers_fail_publishes_empty (fun _ => none) (fun _ => false) (fun _ => false)
      previousState [none] [none] [none] (by simp) (by simp) (by simp) "x.torrent").2⟩

/-- Claim C4: the published state after any non-empty sequence of discovery
passes — each pass one atomic `publishMaps`, the critical section of
webseed.go lines 109-112 — is the complete pair of maps of one single pass:
what the locked accessors `TorrentUrls` and `ByFileName` return both come
from that same pass, never a mix of two passes. -/
theorem published_pair_from_single_pass (st0 : WebSeedsState)
    (passes : List WebSeedMaps) (h : passes ≠ []) :
    ∃ m ∈ passes,
      TorrentUrls (passes.foldl publishMaps st0) = m.torrentUrls
      ∧ ∀ name, ByFileName (passes.foldl publishMaps st0) name
          = (m.byFileName name, !(m.byFileName name).isEmpty) := by
  induction passes generalizing st0 with
  | nil => exact absurd rfl h
  | cons p ps ih =>
    cases ps with
    | nil => exact ⟨p, List.mem_singleton.2 rfl, rfl, fun _ => rfl⟩
    | cons q qs =>
      obtain ⟨m, hm, h1, h2⟩ := ih (publishMaps st0 p) (by simp)
      exact ⟨m, List.mem_cons_of_mem _ hm, h1, h2⟩

/-- Two sample discovery passes used to instantiate
`published_pair_from_single_pass`. -/
def passOne : WebSeedMaps where
  byFileName := fun _ => ["http://a/data"]
  torrentUrls := fun _ => [⟨"http://a/data.torrent"⟩]

/-- Second sample pass, with different contents than `passOne`. -/
def passTwo : WebSeedMaps where
  byFileName := fun _ => ["http://b/data"]
  torrentUrls := fun _ => [⟨"http://b/data.torrent"⟩]

/-- Closed instance of `published_pair_from_single_pass` at two concrete
passes over a concrete initial state. -/
theorem published_pair_from_single_pass_witness :
    ∃ m ∈ [passOne, passTwo],
      TorrentUrls ([passOne, passTwo].foldl publishMaps previousState) = m.torrentUrls
      ∧ ∀ name, ByFileName ([passOne, passTwo].foldl publishMaps previousState) name
          = (m.byFileName name, !(m.byFileName name).isEmpty) :=
  published_pair_from_single_pass previousState [passOne, passTwo]
    (List.cons_ne_nil _ _)

/-! ## Frame lemmas for the skip-if-present policy -/

theorem runTorrentTask_fs_shape (validateOk : List Nat → Bool)
    (fetch : URL → FetchResult) (diskFails : Bool) (fs₀ : FS) (tPath : FsPath) :
    ∀ urls : List URL,
      (runTorrentTask validateOk fetch diskFails fs₀ tPath urls).1 = fs₀
      ∨ ∃ r, (runTorrentTask validateOk fetch diskFails fs₀ tPath urls).1
          = (tPath, r) :: fs₀ := by
  intro urls
  induction urls with
  | nil => exact Or.inl rfl
  | cons u rest ih =>
    unfold runTorrentTask
    cases callTorrentHttpProvider validateOk (fetch u) with
    | err => exact ih
    | okNone =>
      by_cases hd : diskFails
      · simp only [saveTorrent, if_pos hd]
        exact ih
      · simp only [saveTorrent, if_neg hd]
        exact Or.inr ⟨[], rfl⟩
    | okBytes res =>
      by_cases hd : diskFails
      · simp only [saveTorrent, if_pos hd]
        exact ih
      · simp only [saveTorrent, if_neg hd]
        exact Or.inr ⟨res, rfl⟩

theorem processTorrentEntry_frame (validateOk : List Nat → Bool)
    (fetch : URL → FetchResult) (diskFails : Bool) (rootDir name : String)
    (acc : FS × TorrentLog) (e : String × List URL)
    (hex : fsExists acc.1 ⟨rootDir, name⟩ = true) :
    fsExists (processTorrentEntry validateOk fetch diskFails rootDir acc e).1
        ⟨rootDir, name⟩ = true
    ∧ fsGet (processTorrentEntry validateOk fetch diskFails rootDir acc e).1
        ⟨rootDir, name⟩ = fsGet acc.1 ⟨rootDir, name⟩
    ∧ ∀ u, (name, u) ∈ (processTorrentEntry validateOk fetch diskFails rootDir acc e).2
        → (name, u) ∈ acc.2 := by
  unfold processTorrentEntry
  by_cases hfe : fsExists acc.1 ⟨rootDir, e.1⟩ = true
  · simp only [if_pos hfe]
    exact ⟨hex, trivial, fun u hu => hu⟩
  · have hne : e.1 ≠ name := fun hcon => hfe (by rw [hcon]; exact hex)
    by_cases hrs : reservedFamilySkip e.1 = true
    · simp only [if_neg hfe, if_pos hrs]
      exact ⟨hex, trivial, fun u hu => hu⟩
    · simp only [if_neg hfe, if_neg hrs]
      rcases runTorrentTask_fs_shape validateOk fetch diskFails acc.1 ⟨rootDir, e.1⟩ e.2
        with hsame | ⟨r, hcons⟩
      · refine ⟨by rw [hsame]; exact hex, by rw [hsame], fun u hu => ?_⟩
        rcases List.mem_append.1 hu with hu1 | hu2
        · exact hu1
        · obtain ⟨u0, _, hpair⟩ := List.mem_map.1 hu2
          have heq : e.1 = name := by simpa using congrArg Prod.fst hpair
          exact absurd heq hne
      · have hpne : ((⟨rootDir, e.1⟩ : FsPath) == (⟨rootDir, name⟩ : FsPath)) = false := by
          simp [hne]
        refine ⟨?_, ?_, fun u hu => ?_⟩
        · rw [hcons]
          simp only [fsExists, List.any_cons, hpne, Bool.false_or]
          exact hex
        · rw [hcons]
          simp only [fsGet, List.find?_cons, hpne]
        · rcases List.mem_append.1 hu with hu1 | hu2
          · exact hu1
          · obtain ⟨u0, _, hpair⟩ := List.mem_map.1 hu2
            have heq : e.1 = name := by simpa using congrArg Prod.fst hpair
            exact absurd heq hne

theorem foldl_processTorrentEntry_frame (validateOk : List Nat → Bool)
    (fetch : URL → FetchResult) (diskFails : Bool) (rootDir name : String) :
    ∀ (entries : List (String × List URL)) (acc : FS × TorrentLog),
      fsExists acc.1 ⟨rootDir, name⟩ = true →
      fsExists (entries.foldl (processTorrentEntry validateOk fetch diskFails rootDir)
          acc).1 ⟨rootDir, name⟩ = true
      ∧ fsGet (entries.foldl (processTorrentEntry validateOk fetch diskFails rootDir)
          acc).1 ⟨rootDir, name⟩ = fsGet acc.1 ⟨rootDir, name⟩
      ∧ ∀ u, (name, u) ∈ (entries.foldl
          (processTorrentEntry validateOk fetch diskFails rootDir) acc).2
          → (name, u) ∈ acc.2 := by
  intro entries
  induction entries with
  | nil => exact fun acc h => ⟨h, rfl, fun u hu => hu⟩
  | cons e es ih =>
    intro acc h
    obtain ⟨s1, s2, s3⟩ :=
      processTorrentEntry_frame validateOk fetch diskFails rootDir name acc e h
    obtain ⟨t1, t2, t3⟩ :=
      ih (processTorrentEntry validateOk fetch diskFails rootDir acc e) s1
    exact ⟨t1, t2.trans s2, fun u hu => s3 u (t3 u hu)⟩

/-- Claim C9: for every name whose descriptor file already exists at
`rootDir/name`, the coordinator issues no fetch for that name and the
existing file's contents are left untouched. -/
theorem existing_file_skipped_and_unchanged (validateOk : List Nat → Bool)
    (fetch : URL → FetchResult) (diskFails : Bool)
    (tMap : List (String × List URL)) (rootDir name : String) (fs : FS)
    (hex : fsExists fs ⟨rootDir, name⟩ = true) :
    (∀ u, (name, u) ∉ (downloadTorrentFilesFromProviders validateOk fetch diskFails
        true tMap rootDir fs).2)
  ∧ fsGet (downloadTorrentFilesFromProviders validateOk fetch diskFails
        true tMap rootDir fs).1 ⟨rootDir, name⟩ = fsGet fs ⟨rootDir, name⟩ := by
  unfold downloadTorrentFilesFromProviders
  by_cases hlen : tMap.length = 0
  · simp [hlen]
  · simp only [Bool.not_true, Bool.false_eq_true, if_false, if_neg hlen]
    obtain ⟨_, h2, h3⟩ :=
      foldl_processTorrentEntry_frame validateOk fetch diskFails rootDir name tMap
        (fs, []) hex
    exact ⟨fun u hu => absurd (h3 u hu) (List.not_mem_nil _), h2⟩

/-- Closed instance of `existing_file_skipped_and_unchanged`: one name whose
file is already on disk with contents `[7]`; nothing is fetched for it and
the contents survive the pass. -/
theorem existing_file_skipped_and_unchanged_witness :
    ("a.torrent", (⟨"http://m/a.torrent"⟩ : URL))
      ∉ (downloadTorrentFilesFromProviders (fun _ => true)
          (fun _ => .fetched ⟨20, [1]⟩) false true
          [("a.torrent", [⟨"http://m/a.torrent"⟩])] "root"
          [(⟨"root", "a.torrent"⟩, [7])]).2
  ∧ fsGet (downloadTorrentFilesFromProviders (fun _ => true)
        (fun _ => .fetched ⟨20, [1]⟩) false true
        [("a.torrent", [⟨"http://m/a.torrent"⟩])] "root"
        [(⟨"root", "a.torrent"⟩, [7])]).1 ⟨"root", "a.torrent"⟩ = some [7] :=
  ⟨(existing_file_skipped_and_unchanged (fun _ => true) (fun _ => .fetched ⟨20, [1]⟩)
      false [("a.torrent", [⟨"http://m/a.torrent"⟩])] "root" "a.torrent"
      [(⟨"root", "a.torrent"⟩, [7])] (by decide)).1 ⟨"http://m/a.torrent"⟩,
   ((existing_file_skipped_and_unchanged (fun _ => true) (fun _ => .fetched ⟨20, [1]⟩)
      false [("a.torrent", [⟨"http://m/a.torrent"⟩])] "root" "a.torrent"
      [(⟨"root", "a.torrent"⟩, [7])] (by decide)).2).trans (by decide)⟩

end Webseed
